import Mathlib

/-!
Verification development for the PhotonReader RSVP scheduler and store.

The definitions below are shallow embeddings of the TypeScript source:
* `useRSVP` (hybrid sync iteration): the alignment mapper (sticky mark
  search and interpolation fallback), the scheduler evaluation cycle,
  the fail-safe timer tick and the chunk-ended handler;
* `useStore`: the zustand store actions (`setWpm`, `toggleAudio`,
  `togglePlaySmart`, `seekByTime`, ...).

Times (audio `currentTime`, `duration`) and `wpm` are modelled as
rationals; token indices as integers (JS numbers used as integers).
-/

namespace PhotonReader

/-- Word-level alignment mark returned by the TTS service
(`WordMark` in `useEdgeTTS.ts`; the source field `end` is `endTime` here). -/
structure WordMark where
  word : String
  start : ℚ
  endTime : ℚ
  deriving Repr, DecidableEq

/-- `const CHUNK_SIZE = 50` in `useRSVP`. -/
def CHUNK_SIZE : ℤ := 50

/-- The "sticky" mark search of the hybrid sync effect:
`for (i) { if (currentTime >= marks[i].start) relativeIndex = i; else break; }`
starting from `relativeIndex = -1`. -/
def stickyIndex (t : ℚ) : List WordMark → ℤ
  | [] => -1
  | m :: rest => if m.start ≤ t then stickyIndex t rest + 1 else -1

/-- `Math.min(CHUNK_SIZE, content.length - audioOffsetRef.current)` —
the word count of the active chunk used by the interpolation fallback. -/
def chunkWordCount (contentLen audioOffset : ℤ) : ℤ :=
  min CHUNK_SIZE (contentLen - audioOffset)

/-- The alignment mapping computed by the hybrid sync effect of `useRSVP`:
marks present → sticky search; otherwise if `duration > 0` →
`Math.floor((currentTime / duration) * chunkWordCount)`; otherwise `-1`. -/
def mapPosition (marks : List WordMark) (t d : ℚ) (contentLen audioOffset : ℤ) : ℤ :=
  if 0 < marks.length then stickyIndex t marks
  else if 0 < d then ⌊t / d * ((chunkWordCount contentLen audioOffset : ℤ) : ℚ)⌋
  else -1

/-- The slice of the zustand store (`useStore.ts`) acted on by the claims:
`content`, `wpm`, `isPlaying`, `currentIndex`, `isAudioEnabled`. -/
structure AppState where
  content : List String
  wpm : ℚ
  isPlaying : Bool
  currentIndex : ℤ
  isAudioEnabled : Bool
  deriving Repr

/-- `content.length` as an integer. -/
def contentLen (s : AppState) : ℤ := s.content.length

/-- `setWpm` of `useStore.ts`: `limit = isAudioEnabled ? 250 : 1000;`
`set({ wpm: Math.min(wpm, limit) })`. -/
def setWpm (s : AppState) (w : ℚ) : AppState :=
  { s with wpm := min w (if s.isAudioEnabled then 250 else 1000) }

/-- `toggleAudio` of `useStore.ts`: flips `isAudioEnabled` and, when turning
audio on, clamps any `wpm > 250` down to 250. -/
def toggleAudio (s : AppState) : AppState :=
  let nextState := !s.isAudioEnabled
  let nextWpm := if nextState ∧ s.wpm > 250 then (250 : ℚ) else s.wpm
  { s with isAudioEnabled := nextState, wpm := nextWpm }

/-- `togglePlaySmart` of `useStore.ts`: pause when playing; otherwise rewind
ten words (clamped at 0) and play. -/
def togglePlaySmart (s : AppState) : AppState :=
  if s.isPlaying then { s with isPlaying := false }
  else { s with currentIndex := max 0 (s.currentIndex - 10), isPlaying := true }

/-- `seekByTime` of `useStore.ts`:
`wordsToSeek = Math.ceil((wpm / 60) * Math.abs(seconds))`, subtracted and
clamped at 0 for negative `seconds`, added and clamped at
`content.length - 1` otherwise. -/
def seekByTime (s : AppState) (seconds : ℚ) : AppState :=
  let wordsToSeek : ℤ := ⌈s.wpm / 60 * |seconds|⌉
  let newIndex : ℤ :=
    if seconds < 0 then max 0 (s.currentIndex - wordsToSeek)
    else min (contentLen s - 1) (s.currentIndex + wordsToSeek)
  { s with currentIndex := newIndex }

/-- `setCurrentIndex` of `useStore.ts` (progress bookkeeping elided). -/
def setCurrentIndex (s : AppState) (i : ℤ) : AppState := { s with currentIndex := i }

/-- `setIsPlaying` of `useStore.ts`. -/
def setIsPlaying (s : AppState) (b : Bool) : AppState := { s with isPlaying := b }

/-- `reset` of `useStore.ts`: `set({ currentIndex: 0, isPlaying: true })`. -/
def resetStore (s : AppState) : AppState := { s with currentIndex := 0, isPlaying := true }

/-- The demo document installed by the store's initial state and `goHome`. -/
def DEFAULT_CONTENT : List String :=
  ("Welcome to PhotonReader. This is a live demo of Rapid Serial Visual Presentation. By displaying words one at a time, we eliminate eye movement, allowing you to read at double or triple your normal speed. Upload your own PDF below to get started.").splitOn " "

/-- `goHome` of `useStore.ts` (fields outside the model elided). -/
def goHome (s : AppState) : AppState :=
  { s with content := DEFAULT_CONTENT, currentIndex := 0, isPlaying := false }

/-- `setContent` of `useStore.ts`, restricted to the modelled fields:
installs the new word list, resets the index and pauses. -/
def setContent (s : AppState) (words : List String) : AppState :=
  { s with content := words, currentIndex := 0, isPlaying := false }

/-- `loadRecentFile` of `useStore.ts`, restricted to the modelled fields. -/
def loadRecentFile (s : AppState) (words : List String) (progress : ℤ) : AppState :=
  { s with content := words, currentIndex := progress, isPlaying := false }

/-- The store's initial state: demo content, `wpm: 250`, `isPlaying: false`,
`currentIndex: 0`, `isAudioEnabled: false`. -/
def initialState : AppState :=
  { content := DEFAULT_CONTENT
    wpm := 250
    isPlaying := false
    currentIndex := 0
    isAudioEnabled := false }

/-- One user-facing store action (the actions of `useStore.ts` that touch the
modelled fields; all remaining actions leave them unchanged). -/
inductive StoreOp where
  | setWpmOp (w : ℚ)
  | toggleAudioOp
  | togglePlaySmartOp
  | seekByTimeOp (seconds : ℚ)
  | setCurrentIndexOp (i : ℤ)
  | setIsPlayingOp (b : Bool)
  | resetOp
  | goHomeOp
  | setContentOp (words : List String)
  | loadRecentFileOp (words : List String) (progress : ℤ)

/-- Apply one store action. -/
def applyOp (s : AppState) : StoreOp → AppState
  | .setWpmOp w => setWpm s w
  | .toggleAudioOp => toggleAudio s
  | .togglePlaySmartOp => togglePlaySmart s
  | .seekByTimeOp sec => seekByTime s sec
  | .setCurrentIndexOp i => setCurrentIndex s i
  | .setIsPlayingOp b => setIsPlaying s b
  | .resetOp => resetStore s
  | .goHomeOp => goHome s
  | .setContentOp ws => setContent s ws
  | .loadRecentFileOp ws p => loadRecentFile s ws p

/-- Run a sequence of store actions from a state. -/
def runOps (s : AppState) (ops : List StoreOp) : AppState :=
  ops.foldl applyOp s

/-- The narration-driver state visible to `useRSVP` (from `useEdgeTTS`):
the media element's flags and clock, the chunk anchor kept in
`audioOffsetRef`, the `audioStartedRef` flag and the fetched marks. -/
structure AudioState where
  present : Bool
  paused : Bool
  ended : Bool
  readyState : ℤ
  currentTime : ℚ
  duration : ℚ
  marks : List WordMark
  isLoading : Bool
  audioStarted : Bool
  audioOffset : ℤ
  hasAudioUrl : Bool
  deriving Repr

/-- State seen by one evaluation of the hybrid sync effect of `useRSVP`:
the store slice, the narration-driver state, and whether a timer tick
scheduled by an earlier evaluation is still pending. -/
structure SchedState where
  app : AppState
  audio : AudioState
  pendingTimer : Bool
  deriving Repr

/-- `audioElement && !audioElement.paused && !audioElement.ended &&
audioElement.readyState > 2` — audio is genuinely driving. -/
def isAudioActuallyPlaying (a : AudioState) : Bool :=
  a.present && !a.paused && !a.ended && decide (2 < a.readyState)

/-- `isAudioEnabled && !audioStartedRef.current && !isLoading` — the chunk
fetch branch of the effect fires (anchoring `audioOffsetRef` at
`currentIndex`). -/
def fetchNeeded (s : SchedState) : Bool :=
  s.app.isAudioEnabled && !s.audio.audioStarted && !s.audio.isLoading

/-- Outcome of one evaluation of the hybrid sync effect: the published
`currentIndex`, whether a timer tick is left pending after the evaluation,
and whether the Alignment Mapper's output was the mutating source. -/
structure CycleResult where
  currentIndex : ℤ
  timerPending : Bool
  mutatedByMapper : Bool
  deriving Repr

/-- The `relativeIndex` local of the hybrid sync effect: the Alignment
Mapper applied to the current audio clock and chunk anchor. -/
def relIndexOf (s : SchedState) : ℤ :=
  mapPosition s.audio.marks s.audio.currentTime s.audio.duration
    (contentLen s.app) s.audio.audioOffset

/-- One evaluation of the hybrid sync effect of `useRSVP` (the branch
structure of its body): bail out when not playing or at the end (clearing
any pending timer); in audio mode, clear the pending timer and either apply
the Alignment Mapper (audio actually playing) or arm the fail-safe timer;
in timer mode, arm the standard timer. A pending tick never fires inside
the evaluation: `setTimeout` callbacks run later, as their own cycle. -/
def evalCycle (s : SchedState) : CycleResult :=
  if !s.app.isPlaying || decide (contentLen s.app ≤ s.app.currentIndex) then
    { currentIndex := s.app.currentIndex, timerPending := false, mutatedByMapper := false }
  else if s.app.isAudioEnabled then
    if isAudioActuallyPlaying s.audio then
      if relIndexOf s ≠ -1 then
        if s.audio.audioOffset + relIndexOf s ≠ s.app.currentIndex
            ∧ s.audio.audioOffset + relIndexOf s < contentLen s.app then
          { currentIndex := s.audio.audioOffset + relIndexOf s, timerPending := false,
            mutatedByMapper := true }
        else
          { currentIndex := s.app.currentIndex, timerPending := false, mutatedByMapper := false }
      else
        { currentIndex := s.app.currentIndex, timerPending := false, mutatedByMapper := false }
    else
      { currentIndex := s.app.currentIndex, timerPending := true, mutatedByMapper := false }
  else
    { currentIndex := s.app.currentIndex, timerPending := true, mutatedByMapper := false }

/-- The `ended` handler of `useRSVP` (hybrid iteration): on chunk end, jump
to `max(currentIndex, audioOffset + CHUNK_SIZE)` and re-arm the fetch when
more tokens remain, otherwise stop playback, stop audio and reset the index
to document start. -/
def handleEnded (s : SchedState) : SchedState :=
  if !s.app.isPlaying then s
  else if s.audio.audioOffset + CHUNK_SIZE < contentLen s.app then
    { s with
        app := { s.app with
          currentIndex := max s.app.currentIndex (s.audio.audioOffset + CHUNK_SIZE) }
        audio := { s.audio with audioStarted := false } }
  else
    { s with
        app := { s.app with isPlaying := false, currentIndex := 0 }
        audio := { s.audio with paused := true, currentTime := 0 } }

/-- The fetch-failure continuation of `useRSVP`:
`fetchAudio(...).then(success => { if (!success) useStore.getState().toggleAudio(); })`. -/
def onFetchFailure (s : SchedState) : SchedState :=
  { s with app := toggleAudio s.app }

/-- The timer tick callback of the refined `useRSVP` iteration (both the
fail-safe and the standard branch):
`if (currentIndex + 1 < content.length) setCurrentIndex(currentIndex + 1);
else setIsPlaying(false);`. -/
def timerTick (s : AppState) : AppState :=
  if s.currentIndex + 1 < contentLen s then { s with currentIndex := s.currentIndex + 1 }
  else { s with isPlaying := false }

/-! Helper lemmas about the sticky mark search. -/

theorem stickyIndex_ge_neg_one (t : ℚ) (ms : List WordMark) : -1 ≤ stickyIndex t ms := by
  induction ms with
  | nil => simp [stickyIndex]
  | cons m rest ih =>
    simp only [stickyIndex]
    split
    · omega
    · exact le_refl _

theorem stickyIndex_lt_length (t : ℚ) (ms : List WordMark) :
    stickyIndex t ms < (ms.length : ℤ) := by
  induction ms with
  | nil => simp [stickyIndex]
  | cons m rest ih =>
    simp only [stickyIndex, List.length_cons]
    split
    · push_cast
      omega
    · push_cast
      omega

theorem stickyIndex_head_gt (t : ℚ) (m : WordMark) (rest : List WordMark)
    (h : t < m.start) : stickyIndex t (m :: rest) = -1 := by
  simp [stickyIndex, not_le.mpr h]

theorem stickyIndex_eq_of_sorted (t : ℚ) (ms : List WordMark)
    (hsorted : ms.Pairwise (fun a b => a.start ≤ b.start)) (i : ℕ) (hi : i < ms.length)
    (hle : (ms.get ⟨i, hi⟩).start ≤ t)
    (hnext : ∀ (h2 : i + 1 < ms.length), t < (ms.get ⟨i + 1, h2⟩).start) :
    stickyIndex t ms = (i : ℤ) := by
  induction ms generalizing i with
  | nil => simp at hi
  | cons m rest ih =>
    rcases List.pairwise_cons.mp hsorted with ⟨hhead, hrest⟩
    cases i with
    | zero =>
      have hm : m.start ≤ t := by simpa using hle
      simp only [stickyIndex, if_pos hm]
      cases rest with
      | nil => simp [stickyIndex]
      | cons m2 r2 =>
        have h2 : (0 : ℕ) + 1 < (m :: m2 :: r2).length := by simp
        have hm2 : t < m2.start := by simpa using hnext h2
        rw [stickyIndex_head_gt t m2 r2 hm2]
        norm_num
    | succ j =>
      have hj : j < rest.length := by simpa [Nat.succ_lt_succ_iff] using hi
      have hgetj : (rest.get ⟨j, hj⟩).start ≤ t := by simpa using hle
      have hm : m.start ≤ t :=
        le_trans (hhead _ (List.get_mem rest j hj)) hgetj
      have hnext' : ∀ (h2 : j + 1 < rest.length), t < (rest.get ⟨j + 1, h2⟩).start := by
        intro h2
        have h2' : (j + 1) + 1 < (m :: rest).length := by
          simpa [Nat.succ_lt_succ_iff] using h2
        simpa using hnext h2'
      have hrec := ih hrest j hj hgetj hnext'
      simp only [stickyIndex, if_pos hm, hrec]
      push_cast
      ring

/-- Claim C2: with a non-empty ordered marks list, the mapping is a sticky
search on `startTime` alone: it returns the index `i` of the last mark whose
start has been passed (`startTime_i ≤ t`, and either `i` is last or
`t < startTime_{i+1}`), and returns -1 for any probe time strictly before the
first mark's start — independent of every mark's `endTime`. -/
theorem claim_C2_sticky_mark_mapping (t d : ℚ) (contentLen_ audioOffset : ℤ)
    (ms : List WordMark) (hsorted : ms.Pairwise (fun a b => a.start ≤ b.start)) :
    (∀ (i : ℕ) (hi : i < ms.length), (ms.get ⟨i, hi⟩).start ≤ t →
      (∀ (h2 : i + 1 < ms.length), t < (ms.get ⟨i + 1, h2⟩).start) →
      mapPosition ms t d contentLen_ audioOffset = (i : ℤ))
    ∧ (∀ (hne : ms ≠ []), t < (ms.head hne).start →
      mapPosition ms t d contentLen_ audioOffset = -1) := by
  constructor
  · intro i hi hle hnext
    have hpos : 0 < ms.length := Nat.lt_of_le_of_lt (Nat.zero_le i) hi
    rw [mapPosition, if_pos hpos]
    exact stickyIndex_eq_of_sorted t ms hsorted i hi hle hnext
  · intro hne hlt
    cases ms with
    | nil => exact absurd rfl hne
    | cons m rest =>
      rw [mapPosition, if_pos (by simp)]
      exact stickyIndex_head_gt t m rest (by simpa using hlt)

theorem claim_C2_witness :
    ([⟨"a", 0, 1⟩, ⟨"b", 2, 3⟩] : List WordMark).Pairwise (fun a b => a.start ≤ b.start)
    ∧ mapPosition [⟨"a", 0, 1⟩, ⟨"b", 2, 3⟩] 5 0 100 0 = 1
    ∧ mapPosition [⟨"a", 0, 1⟩, ⟨"b", 2, 3⟩] (-1) 0 100 0 = -1 := by
  have hsorted : ([⟨"a", 0, 1⟩, ⟨"b", 2, 3⟩] : List WordMark).Pairwise
      (fun a b => a.start ≤ b.start) := by
    norm_num [List.pairwise_cons]
  refine ⟨hsorted, ?_, ?_⟩
  · refine (claim_C2_sticky_mark_mapping 5 0 100 0 _ hsorted).1 1 (by norm_num)
      (by norm_num) ?_
    intro h2
    simp at h2
  · exact (claim_C2_sticky_mark_mapping (-1) 0 100 0 _ hsorted).2 (by simp) (by norm_num)

/-! Helper lemmas about the interpolation fallback. -/

theorem interp_floor_bounds (t d : ℚ) (contentLen_ audioOffset : ℤ)
    (hd : 0 < d) (ht0 : 0 ≤ t) (htd : t < d) (hoff : audioOffset ≤ contentLen_) :
    0 ≤ ⌊t / d * ((chunkWordCount contentLen_ audioOffset : ℤ) : ℚ)⌋
    ∧ ⌊t / d * ((chunkWordCount contentLen_ audioOffset : ℤ) : ℚ)⌋ < CHUNK_SIZE := by
  set c : ℤ := chunkWordCount contentLen_ audioOffset with hc
  have hc0 : (0 : ℤ) ≤ c := by
    rw [hc, chunkWordCount, CHUNK_SIZE]
    omega
  have hc50 : c ≤ 50 := by
    rw [hc, chunkWordCount, CHUNK_SIZE]
    exact min_le_left _ _
  have hratio0 : (0 : ℚ) ≤ t / d := div_nonneg ht0 (le_of_lt hd)
  have hratio1 : t / d < 1 := (div_lt_one hd).mpr htd
  have hcq0 : (0 : ℚ) ≤ (c : ℚ) := by exact_mod_cast hc0
  have hcq50 : (c : ℚ) ≤ 50 := by exact_mod_cast hc50
  constructor
  · exact Int.le_floor.mpr (by simpa using mul_nonneg hratio0 hcq0)
  · rw [CHUNK_SIZE]
    refine Int.floor_lt.mpr ?_
    have h1 : t / d * (c : ℚ) ≤ t / d * 50 := by
      exact mul_le_mul_of_nonneg_left hcq50 hratio0
    have h2 : t / d * 50 < 50 := by nlinarith
    push_cast
    linarith

/-- Claim C3 (corrected): with empty marks and known positive duration the
mapping returns `floor(t / d * chunkWordCount)` where `chunkWordCount =
min(CHUNK_SIZE, contentLen - audioOffset)`, with NO clamping; the result lies
in `[0, CHUNK_SIZE)` whenever `0 ≤ t < d` (and the chunk anchor is inside the
document), and probing a 10-second chunk at 5 seconds with a full window
yields relative index 25. -/
theorem claim_C3_interpolation_fallback (t d : ℚ) (contentLen_ audioOffset : ℤ)
    (hd : 0 < d) (ht0 : 0 ≤ t) (htd : t < d) (hoff : audioOffset ≤ contentLen_) :
    mapPosition [] t d contentLen_ audioOffset
      = ⌊t / d * ((chunkWordCount contentLen_ audioOffset : ℤ) : ℚ)⌋
    ∧ 0 ≤ mapPosition [] t d contentLen_ audioOffset
    ∧ mapPosition [] t d contentLen_ audioOffset < CHUNK_SIZE := by
  have heq : mapPosition [] t d contentLen_ audioOffset
      = ⌊t / d * ((chunkWordCount contentLen_ audioOffset : ℤ) : ℚ)⌋ := by
    rw [mapPosition]
    simp [hd]
  have hb := interp_floor_bounds t d contentLen_ audioOffset hd ht0 htd hoff
  exact ⟨heq, heq ▸ hb.1, heq ▸ hb.2⟩

theorem claim_C3_witness :
    (0 : ℚ) < 10 ∧ (0 : ℚ) ≤ 5 ∧ (5 : ℚ) < 10 ∧ (0 : ℤ) ≤ 1000
    ∧ mapPosition [] 5 10 1000 0 = 25
    ∧ 0 ≤ mapPosition [] 5 10 1000 0 ∧ mapPosition [] 5 10 1000 0 < CHUNK_SIZE := by
  have h := claim_C3_interpolation_fallback 5 10 1000 0 (by norm_num) (by norm_num)
    (by norm_num) (by norm_num)
  refine ⟨by norm_num, by norm_num, by norm_num, by norm_num, ?_, h.2.1, h.2.2⟩
  rw [h.1]
  norm_num [chunkWordCount, CHUNK_SIZE]

theorem claim_C3_counterexample :
    mapPosition [] 10 10 1000 0 = 50
    ∧ ¬(0 ≤ mapPosition [] 10 10 1000 0 ∧ mapPosition [] 10 10 1000 0 < 50)
    ∧ max 0 (min (⌊(10 : ℚ) / 10 * 50⌋) 49) = 49
    ∧ mapPosition [] 10 10 1000 0 ≠ max 0 (min (⌊(10 : ℚ) / 10 * 50⌋) 49) := by
  have h : mapPosition [] 10 10 1000 0 = 50 := by
    norm_num [mapPosition, chunkWordCount, CHUNK_SIZE]
  refine ⟨h, ?_, by norm_num, ?_⟩
  · rw [h]
    norm_num
  · rw [h]
    norm_num

/-- Claim C4 (corrected): the mapping is a pure function; it returns -1
whenever marks are empty and no positive duration is known; with marks its
result is -1 or an index inside `[0, marks.length)` — inside
`[0, CHUNK_SIZE)` provided the service sent at most `CHUNK_SIZE` marks; in
the interpolation branch its result is inside `[0, CHUNK_SIZE)` provided the
probe time satisfies `0 ≤ t < d` (the branch performs no clamping, so probe
times at or past the duration escape the window). -/
theorem claim_C4_mapper_range (marks : List WordMark) (t d : ℚ)
    (contentLen_ audioOffset : ℤ) :
    (marks = [] → ¬(0 < d) → mapPosition marks t d contentLen_ audioOffset = -1)
    ∧ (0 < marks.length → (marks.length : ℤ) ≤ CHUNK_SIZE →
        mapPosition marks t d contentLen_ audioOffset = -1
        ∨ (0 ≤ mapPosition marks t d contentLen_ audioOffset
           ∧ mapPosition marks t d contentLen_ audioOffset < CHUNK_SIZE))
    ∧ (marks = [] → 0 < d → 0 ≤ t → t < d → audioOffset ≤ contentLen_ →
        0 ≤ mapPosition marks t d contentLen_ audioOffset
        ∧ mapPosition marks t d contentLen_ audioOffset < CHUNK_SIZE) := by
  refine ⟨?_, ?_, ?_⟩
  · intro hm hd
    subst hm
    rw [mapPosition]
    simp [hd]
  · intro hpos hbound
    rw [mapPosition, if_pos hpos]
    have hlb := stickyIndex_ge_neg_one t marks
    have hub := stickyIndex_lt_length t marks
    by_cases hneg : stickyIndex t marks = -1
    · exact Or.inl hneg
    · right
      constructor
      · omega
      · omega
  · intro hm hd ht0 htd hoff
    subst hm
    have heq : mapPosition [] t d contentLen_ audioOffset
        = ⌊t / d * ((chunkWordCount contentLen_ audioOffset : ℤ) : ℚ)⌋ := by
      rw [mapPosition]
      simp [hd]
    have hb := interp_floor_bounds t d contentLen_ audioOffset hd ht0 htd hoff
    exact ⟨heq ▸ hb.1, heq ▸ hb.2⟩

theorem claim_C4_witness :
    mapPosition [] 5 0 1000 0 = -1
    ∧ (mapPosition [⟨"a", 0, 1⟩] 7 0 100 0 = -1
       ∨ (0 ≤ mapPosition [⟨"a", 0, 1⟩] 7 0 100 0
          ∧ mapPosition [⟨"a", 0, 1⟩] 7 0 100 0 < CHUNK_SIZE))
    ∧ (0 ≤ mapPosition [] 2 8 1000 0 ∧ mapPosition [] 2 8 1000 0 < CHUNK_SIZE) := by
  refine ⟨?_, ?_, ?_⟩
  · exact (claim_C4_mapper_range [] 5 0 1000 0).1 rfl (by norm_num)
  · exact (claim_C4_mapper_range [⟨"a", 0, 1⟩] 7 0 100 0).2.1 (by norm_num)
      (by norm_num [CHUNK_SIZE])
  · exact (claim_C4_mapper_range [] 2 8 1000 0).2.2 rfl (by norm_num) (by norm_num)
      (by norm_num) (by norm_num)

theorem claim_C4_counterexample :
    mapPosition [] 3 3 1000 0 = 50
    ∧ ¬(mapPosition [] 3 3 1000 0 = -1
        ∨ (0 ≤ mapPosition [] 3 3 1000 0 ∧ mapPosition [] 3 3 1000 0 < 50)) := by
  have h : mapPosition [] 3 3 1000 0 = 50 := by
    norm_num [mapPosition, chunkWordCount, CHUNK_SIZE]
  refine ⟨h, ?_⟩
  rw [h]
  norm_num

/-- Claim C1: in every evaluation of the hybrid sync effect, at most one of
the Alignment Mapper output and the Timer Driver tick mutates
`currentIndex`: a mapper mutation leaves no pending tick (every mutating
branch clears the previously pending timeout first and arms none), and when
a tick is left pending the evaluation itself made no index change — one net
change per cycle, regardless of which events were pending. -/
theorem claim_C1_single_mutator_per_cycle (s : SchedState) :
    ¬((evalCycle s).mutatedByMapper = true ∧ (evalCycle s).timerPending = true)
    ∧ ((evalCycle s).timerPending = true → (evalCycle s).currentIndex = s.app.currentIndex)
    ∧ ((evalCycle s).currentIndex ≠ s.app.currentIndex →
        (evalCycle s).mutatedByMapper = true ∧ (evalCycle s).timerPending = false) := by
  unfold evalCycle
  split_ifs <;> simp_all

theorem claim_C1_witness :
    (evalCycle { app := { content := ["x", "y", "z"], wpm := 300, isPlaying := true,
                          currentIndex := 0, isAudioEnabled := false },
                 audio := { present := false, paused := true, ended := false,
                            readyState := 0, currentTime := 0, duration := 0, marks := [],
                            isLoading := false, audioStarted := false, audioOffset := 0,
                            hasAudioUrl := false },
                 pendingTimer := true }).currentIndex = 0 := by
  refine (claim_C1_single_mutator_per_cycle _).2.1 ?_
  norm_num [evalCycle, contentLen]

/-- Claim C5: on chunk end while playing, the handler computes
`nextOffset = audioOffset + CHUNK_SIZE`; with tokens remaining it moves
`currentIndex` to `max(currentIndex, nextOffset)` — at least `nextOffset`,
never regressing below the index a fail-safe tick already reached — and
clears `audioStartedRef` so the next evaluation fetches a new chunk;
otherwise it stops playback and resets `currentIndex` to document start. -/
theorem claim_C5_chunk_exhaustion (s : SchedState) (hplay : s.app.isPlaying = true) :
    (s.audio.audioOffset + CHUNK_SIZE < contentLen s.app →
      (handleEnded s).app.currentIndex
          = max s.app.currentIndex (s.audio.audioOffset + CHUNK_SIZE)
      ∧ s.audio.audioOffset + CHUNK_SIZE ≤ (handleEnded s).app.currentIndex
      ∧ s.app.currentIndex ≤ (handleEnded s).app.currentIndex
      ∧ (handleEnded s).audio.audioStarted = false
      ∧ (s.app.isAudioEnabled = true → s.audio.isLoading = false →
          fetchNeeded (handleEnded s) = true))
    ∧ (contentLen s.app ≤ s.audio.audioOffset + CHUNK_SIZE →
      (handleEnded s).app.isPlaying = false ∧ (handleEnded s).app.currentIndex = 0) := by
  constructor
  · intro hmore
    have h1 : (handleEnded s).app.currentIndex
        = max s.app.currentIndex (s.audio.audioOffset + CHUNK_SIZE) := by
      simp [handleEnded, hplay, hmore]
    have h2 : (handleEnded s).audio.audioStarted = false := by
      simp [handleEnded, hplay, hmore]
    refine ⟨h1, ?_, ?_, h2, ?_⟩
    · rw [h1]
      exact le_max_right _ _
    · rw [h1]
      exact le_max_left _ _
    · intro henabled hloading
      simp [fetchNeeded, handleEnded, hplay, hmore, henabled, hloading]
  · intro hdone
    have hn : ¬(s.audio.audioOffset + CHUNK_SIZE < contentLen s.app) := by omega
    constructor <;> simp [handleEnded, hplay, hn]

def exhaustedState : SchedState :=
  { app := { content := List.replicate 120 "w", wpm := 150, isPlaying := true,
             currentIndex := 53, isAudioEnabled := true },
    audio := { present := true, paused := false, ended := true,
               readyState := 4, currentTime := 9, duration := 9,
               marks := [], isLoading := false, audioStarted := true,
               audioOffset := 0, hasAudioUrl := true },
    pendingTimer := false }

theorem claim_C5_witness : (handleEnded exhaustedState).app.currentIndex = 53 := by
  have h := (claim_C5_chunk_exhaustion exhaustedState rfl).1
    (by norm_num [exhaustedState, contentLen, CHUNK_SIZE])
  rw [h.1]
  norm_num [exhaustedState, CHUNK_SIZE]

/-- Claim C6: when a narration fetch fails, the failure continuation flips
narration off (the store's `toggleAudio`, reached only from an enabled
state), after which the fetch branch can never fire again (no retry), and
every subsequent evaluation with narration disabled leaves `currentIndex`
untouched by the mapper and arms the Timer Driver as the sole advancing
source. -/
theorem claim_C6_fetch_failure_disables_narration (s : SchedState)
    (h : s.app.isAudioEnabled = true) :
    (onFetchFailure s).app.isAudioEnabled = false
    ∧ fetchNeeded (onFetchFailure s) = false
    ∧ (∀ s' : SchedState, s'.app.isAudioEnabled = false →
        s'.app.isPlaying = true → s'.app.currentIndex < contentLen s'.app →
        (evalCycle s').mutatedByMapper = false
        ∧ (evalCycle s').timerPending = true
        ∧ (evalCycle s').currentIndex = s'.app.currentIndex) := by
  refine ⟨?_, ?_, ?_⟩
  · simp [onFetchFailure, toggleAudio, h]
  · simp [fetchNeeded, onFetchFailure, toggleAudio, h]
  · intro s' hdisabled hplaying hlt
    have hcond : ¬((!s'.app.isPlaying || decide (contentLen s'.app ≤ s'.app.currentIndex))
        = true) := by
      simp [hplaying, not_le.mpr hlt]
    rw [evalCycle, if_neg hcond, if_neg (by simp [hdisabled])]
    exact ⟨rfl, rfl, rfl⟩

theorem claim_C6_witness :
    (onFetchFailure { app := { content := ["x", "y"], wpm := 200, isPlaying := true,
                               currentIndex := 0, isAudioEnabled := true },
                      audio := { present := true, paused := true, ended := false,
                                 readyState := 0, currentTime := 0, duration := 0,
                                 marks := [], isLoading := false, audioStarted := false,
                                 audioOffset := 0, hasAudioUrl := false },
                      pendingTimer := false }).app.isAudioEnabled = false :=
  (claim_C6_fetch_failure_disables_narration _ rfl).1

def timerEndState : AppState :=
  { content := ["a"], wpm := 300, isPlaying := true, currentIndex := 0,
    isAudioEnabled := false }

theorem claim_C7_counterexample :
    timerEndState.isAudioEnabled = false
    ∧ timerEndState.isPlaying = true
    ∧ contentLen timerEndState = 1
    ∧ (timerTick timerEndState).isPlaying = false
    ∧ (timerTick timerEndState).currentIndex = 0
    ∧ (timerTick timerEndState).currentIndex ≠ contentLen timerEndState
    ∧ (timerTick timerEndState).currentIndex ≠ timerEndState.currentIndex + 1 := by
  refine ⟨rfl, rfl, rfl, ?_, ?_, ?_, ?_⟩ <;>
    norm_num [timerTick, timerEndState, contentLen]

/-- Claim C7 (corrected): with narration disabled and playback on, a timer
tick advances `currentIndex` by exactly one only while at least two tokens
remain; `currentIndex` never goes past `len(tokens) - 1`; and the tick that
fires at the last token sets `isPlaying` to false with `currentIndex` left at
`len(tokens) - 1` — playback stops at index `len(tokens) - 1`, not at
`len(tokens)`. -/
theorem claim_C7_timer_driver_bound (s : AppState)
    (haudio : s.isAudioEnabled = false) (hplay : s.isPlaying = true)
    (h0 : 0 ≤ s.currentIndex) (hlt : s.currentIndex < contentLen s) :
    (s.currentIndex + 1 < contentLen s →
      (timerTick s).currentIndex = s.currentIndex + 1 ∧ (timerTick s).isPlaying = true)
    ∧ (timerTick s).currentIndex ≤ contentLen s - 1
    ∧ (contentLen s ≤ s.currentIndex + 1 →
      (timerTick s).isPlaying = false ∧ (timerTick s).currentIndex = s.currentIndex) := by
  refine ⟨?_, ?_, ?_⟩
  · intro hroom
    rw [timerTick, if_pos hroom]
    exact ⟨rfl, hplay⟩
  · rw [timerTick]
    split
    · simpa using by omega
    · simpa using by omega
  · intro hlast
    rw [timerTick, if_neg (by omega)]
    exact ⟨rfl, rfl⟩

theorem claim_C7_witness :
    (timerTick { content := ["a", "b", "c"], wpm := 300, isPlaying := true,
                 currentIndex := 0, isAudioEnabled := false }).currentIndex = 1 :=
  ((claim_C7_timer_driver_bound _ rfl rfl (by norm_num) (by norm_num [contentLen])).1
    (by norm_num [contentLen])).1

/-- Modelled from the spec for comparison with `seekByTime` (claim C8): the
spec converts a relative time-seek to a token-count delta of
`round(rate/60 * seconds)` applied to the current index. -/
def specSeekTarget (wpm seconds : ℚ) (cur : ℤ) : ℤ :=
  cur + round (wpm / 60 * seconds)

def seekState : AppState :=
  { content := List.replicate 100 "w", wpm := 250, isPlaying := false,
    currentIndex := 0, isAudioEnabled := false }

theorem claim_C8_counterexample :
    (seekByTime seekState 1).currentIndex = 5
    ∧ specSeekTarget seekState.wpm 1 seekState.currentIndex = 4
    ∧ (seekByTime seekState 1).currentIndex
        ≠ specSeekTarget seekState.wpm 1 seekState.currentIndex := by
  have hceil : (⌈(25 : ℚ) / 6⌉ : ℤ) = 5 := by
    rw [Int.ceil_eq_iff] <;> norm_num
  have h1 : (seekByTime seekState 1).currentIndex = 5 := by
    norm_num [seekByTime, seekState, contentLen, hceil]
  have h2 : specSeekTarget seekState.wpm 1 seekState.currentIndex = 4 := by
    norm_num [specSeekTarget, seekState, round_eq, Int.floor_eq_iff]
  exact ⟨h1, h2, by rw [h1, h2]; norm_num⟩

/-- Claim C8 (corrected): `seekByTime` converts the time seek into a
token-count delta of `ceil(rate/60 * |seconds|)` — the ceiling of the
absolute value, not `round(rate/60 * seconds)` — subtracts it (clamped at 0)
for negative `seconds` and adds it (clamped at `len(tokens) - 1`) otherwise;
for a nonempty document, a nonnegative rate and an in-range starting index
the new `currentIndex` always lies inside `[0, len(tokens))`, and an
out-of-range target is clamped, never an exception. -/
theorem claim_C8_seek_clamped (s : AppState) (seconds : ℚ)
    (hwpm : 0 ≤ s.wpm) (h0 : 0 ≤ s.currentIndex) (hlt : s.currentIndex < contentLen s) :
    (seekByTime s seconds).currentIndex =
      (if seconds < 0 then max 0 (s.currentIndex - ⌈s.wpm / 60 * |seconds|⌉)
       else min (contentLen s - 1) (s.currentIndex + ⌈s.wpm / 60 * |seconds|⌉))
    ∧ 0 ≤ (seekByTime s seconds).currentIndex
    ∧ (seekByTime s seconds).currentIndex < contentLen s := by
  have hcount : (0 : ℤ) ≤ ⌈s.wpm / 60 * |seconds|⌉ :=
    Int.ceil_nonneg (mul_nonneg (div_nonneg hwpm (by norm_num)) (abs_nonneg _))
  have heq : (seekByTime s seconds).currentIndex =
      (if seconds < 0 then max 0 (s.currentIndex - ⌈s.wpm / 60 * |seconds|⌉)
       else min (contentLen s - 1) (s.currentIndex + ⌈s.wpm / 60 * |seconds|⌉)) := rfl
  refine ⟨heq, ?_, ?_⟩ <;> rw [heq] <;> split <;> omega

theorem claim_C8_witness :
    (seekByTime seekState (-3)).currentIndex = 0
    ∧ 0 ≤ (seekByTime seekState (-3)).currentIndex
    ∧ (seekByTime seekState (-3)).currentIndex < contentLen seekState := by
  have h := claim_C8_seek_clamped seekState (-3) (by norm_num [seekState])
    (by norm_num [seekState]) (by norm_num [seekState, contentLen])
  refine ⟨?_, h.2.1, h.2.2⟩
  rw [h.1]
  have hceil : (0 : ℤ) ≤ ⌈(25 : ℚ) / 2⌉ := Int.ceil_nonneg (by norm_num)
  norm_num [seekState]
  omega

/-- `isAudioEnabled → wpm ≤ 250`, the store invariant of claim C9. -/
def WpmInvariant (s : AppState) : Prop := s.isAudioEnabled = true → s.wpm ≤ 250

theorem wpmInvariant_applyOp (s : AppState) (h : WpmInvariant s) (op : StoreOp) :
    WpmInvariant (applyOp s op) := by
  cases op with
  | setWpmOp w =>
    intro henabled
    simp only [applyOp, setWpm] at henabled ⊢
    rw [if_pos henabled]
    exact min_le_right _ _
  | toggleAudioOp =>
    intro henabled
    simp only [applyOp, toggleAudio] at henabled ⊢
    by_cases ha : s.isAudioEnabled = true
    · simp [ha] at henabled
    · have ha' : s.isAudioEnabled = false := by
        cases hb : s.isAudioEnabled
        · rfl
        · exact absurd hb ha
      by_cases hw : s.wpm > 250
      · simp [ha', hw]
      · simp only [ha', Bool.not_false, true_and, if_pos, gt_iff_lt]
        rw [if_neg (by simpa using hw)]
        simpa using le_of_not_lt hw
  | togglePlaySmartOp =>
    intro henabled
    simp only [applyOp, togglePlaySmart] at henabled ⊢
    split at henabled <;> split <;> simp_all [WpmInvariant]
  | seekByTimeOp sec =>
    intro henabled
    simp only [applyOp, seekByTime] at henabled ⊢
    exact h henabled
  | setCurrentIndexOp i => exact fun henabled => h henabled
  | setIsPlayingOp b => exact fun henabled => h henabled
  | resetOp => exact fun henabled => h henabled
  | goHomeOp => exact fun henabled => h henabled
  | setContentOp ws => exact fun henabled => h henabled
  | loadRecentFileOp ws p => exact fun henabled => h henabled

theorem wpmInvariant_runOps (s : AppState) (h : WpmInvariant s) (ops : List StoreOp) :
    WpmInvariant (runOps s ops) := by
  induction ops generalizing s with
  | nil => exact h
  | cons op rest ih => exact ih (applyOp s op) (wpmInvariant_applyOp s h op)

/-- Claim C9: while audio is enabled `wpm ≤ 250` is a store invariant:
`setWpm` clamps its argument to at most 250 with audio enabled (at most 1000
otherwise, and never raises it above the requested value), `toggleAudio`
lowers any `wpm > 250` to exactly 250 when enabling audio, and no sequence
of store actions started from the initial state reaches
`isAudioEnabled = true` with `wpm > 250`. -/
theorem claim_C9_audio_wpm_cap :
    (∀ (s : AppState) (w : ℚ), s.isAudioEnabled = true →
      (setWpm s w).wpm ≤ 250 ∧ (setWpm s w).wpm ≤ w)
    ∧ (∀ (s : AppState) (w : ℚ), s.isAudioEnabled = false →
      (setWpm s w).wpm ≤ 1000 ∧ (setWpm s w).wpm ≤ w)
    ∧ (∀ s : AppState, s.isAudioEnabled = false → 250 < s.wpm →
      (toggleAudio s).isAudioEnabled = true ∧ (toggleAudio s).wpm = 250)
    ∧ (∀ ops : List StoreOp, (runOps initialState ops).isAudioEnabled = true →
      (runOps initialState ops).wpm ≤ 250) := by
  refine ⟨?_, ?_, ?_, ?_⟩
  · intro s w h
    constructor
    · simp only [setWpm, if_pos h]
      exact min_le_right _ _
    · exact min_le_left _ _
  · intro s w h
    constructor
    · simp only [setWpm, h]
      simp only [Bool.false_eq_true, if_false]
      exact min_le_right _ _
    · exact min_le_left _ _
  · intro s h hw
    constructor
    · simp [toggleAudio, h]
    · simp [toggleAudio, h, hw]
  · intro ops
    refine wpmInvariant_runOps initialState ?_ ops
    intro habs
    simp [initialState] at habs

theorem claim_C9_witness :
    (runOps initialState
        [StoreOp.setWpmOp 900, StoreOp.toggleAudioOp,
         StoreOp.setWpmOp 800]).wpm ≤ 250 :=
  claim_C9_audio_wpm_cap.2.2.2
    [StoreOp.setWpmOp 900, StoreOp.toggleAudioOp, StoreOp.setWpmOp 800] rfl

/-- Claim C10: `togglePlaySmart` while playing pauses and leaves
`currentIndex` unchanged; while paused it rewinds ten tokens clamped at 0
(`max(0, currentIndex - 10)`) and starts playing. -/
theorem claim_C10_toggle_play_smart (s : AppState) :
    (s.isPlaying = true →
      (togglePlaySmart s).isPlaying = false
      ∧ (togglePlaySmart s).currentIndex = s.currentIndex)
    ∧ (s.isPlaying = false →
      (togglePlaySmart s).currentIndex = max 0 (s.currentIndex - 10)
      ∧ (togglePlaySmart s).isPlaying = true) := by
  constructor <;> intro h <;> constructor <;> simp [togglePlaySmart, h]

theorem claim_C10_witness :
    (togglePlaySmart { content := ["a", "b"], wpm := 300, isPlaying := false,
                       currentIndex := 4, isAudioEnabled := false }).currentIndex
      = max 0 ((4 : ℤ) - 10) :=
  ((claim_C10_toggle_play_smart _).2 rfl).1

end PhotonReader
